import Mathlib

/-!
Verification of the provider-quickstart bootstrap package
(pkg/bootstrap/bootstrap.go) and the wild-west Cowboy controller
(operator/wild-west/controller.go).

The Go code is shallowly embedded: each Go function becomes an executable
Lean function over explicit inputs, with the Kubernetes API modelled as an
environment of response functions and every outgoing API call recorded in a
trace list.  Errors are plain strings mirroring the fmt.Errorf wrapping in
the source.
-/

/-- Go schema.GroupVersionKind. -/
structure GroupVersionKind where
  group : String
  version : String
  kind : String
  deriving DecidableEq

/-- A decoded manifest document: the fields of the untyped attribute map
(unstructured.Unstructured) that the bootstrap code reads or writes.
Missing string fields decode to the empty string, exactly as the Go
accessors GetKind, GetName, GetNamespace, GetResourceVersion return "".
The payload field stands for the rest of the document body, which the
applier carries along but never inspects. -/
structure ManifestDoc where
  apiVersion : String
  kind : String
  name : String
  ns : String
  resourceVersion : String
  payload : String
  deriving DecidableEq

/-- Go u.SetResourceVersion. -/
def setResourceVersion (d : ManifestDoc) (rv : String) : ManifestDoc :=
  { d with resourceVersion := rv }

/-- Number of slash characters in a string, as strings.Count(s, "/"). -/
def countSlashes (s : String) : Nat :=
  s.toList.count '/'

/-- Go schema.ParseGroupVersion: zero slashes means a bare version, one
slash splits into group/version, more is a parse error (none). -/
def parseGroupVersion (s : String) : Option (String × String) :=
  let cs := s.toList
  if cs.count '/' = 0 then some ("", s)
  else if cs.count '/' = 1 then
    some (⟨cs.takeWhile (fun c => c ≠ '/')⟩,
          ⟨(cs.dropWhile (fun c => c ≠ '/')).tail⟩)
  else none

/-- Go u.GroupVersionKind(): parse apiVersion and attach the kind field;
on a parse error the whole GVK is empty (schema.ParseGroupVersion error
path in unstructured.GroupVersionKind). -/
def docGVK (d : ManifestDoc) : GroupVersionKind :=
  match parseGroupVersion d.apiVersion with
  | none => ⟨"", "", ""⟩
  | some (g, v) => ⟨g, v, d.kind⟩

/-- One raw YAML document as handed to createResource: it is blank
(whitespace only), fails yaml.Unmarshal, or decodes to a ManifestDoc. -/
inductive RawDoc where
  | whitespace
  | malformed
  | valid (d : ManifestDoc)
  deriving DecidableEq

/-- Go yaml.Unmarshal into u.Object: whitespace input decodes to a nil map
(all accessor fields empty), malformed input errors, otherwise the decoded
document. -/
def decodeDoc : RawDoc → Option ManifestDoc
  | .whitespace => some ⟨"", "", "", "", "", ""⟩
  | .malformed => none
  | .valid d => some d

/-- The bytes.TrimSpace emptiness test in createResourceFromFS. -/
def rawIsBlank : RawDoc → Bool
  | .whitespace => true
  | _ => false

/-- Kubernetes API error classes distinguished by the bootstrap code via
apierrors.IsAlreadyExists and apierrors.IsNotFound. -/
inductive ApiError where
  | alreadyExists
  | notFound
  | other (msg : String)
  deriving DecidableEq

/-- Rendering of an API error when wrapped by fmt.Errorf. -/
def ApiError.message : ApiError → String
  | .alreadyExists => "already exists"
  | .notFound => "not found"
  | .other m => m

/-- Go meta.RESTMapping result: the resolved resource collection. -/
structure RESTMapping where
  resource : String
  deriving DecidableEq

/-- The live object returned by a Get: the only field the applier reads is
resourceVersion. -/
structure ExistingObj where
  resourceVersion : String
  deriving DecidableEq

/-- Environment for createResource: the REST mapper plus the dynamic
client responses for create, get and update.  Responses are functions of
the request so that different documents may fare differently. -/
structure DynEnv where
  restMapping : GroupVersionKind → Except String RESTMapping
  createResp : ManifestDoc → Except ApiError Unit
  getResp : String → String → Except ApiError ExistingObj
  updateResp : ManifestDoc → Except ApiError Unit

/-- One outgoing call made by createResource, in order: REST-mapping
resolution, then create / get / update against the dynamic client.  The
get and update carry the namespace and name they address; update carries
the full document sent (including its resourceVersion). -/
inductive CallEvent where
  | mapping (gvk : GroupVersionKind)
  | create (resource ns name : String) (d : ManifestDoc)
  | get (resource ns name : String)
  | update (resource ns name : String) (d : ManifestDoc)
  deriving DecidableEq

def countCreates (tr : List CallEvent) : Nat :=
  (tr.filter fun e => match e with | .create _ _ _ _ => true | _ => false).length

def countGets (tr : List CallEvent) : Nat :=
  (tr.filter fun e => match e with | .get _ _ _ => true | _ => false).length

def countUpdates (tr : List CallEvent) : Nat :=
  (tr.filter fun e => match e with | .update _ _ _ _ => true | _ => false).length

/-- Go createResource (bootstrap.go): unmarshal, reject a missing kind,
resolve the REST mapping, create, and on an already-exists error get the
existing object, copy its resourceVersion onto the local document and
update.  Returns the result together with the trace of calls made. -/
def createResource (env : DynEnv) (raw : RawDoc) :
    Except String Unit × List CallEvent :=
  match decodeDoc raw with
  | none => (.error "failed to unmarshal YAML", [])
  | some u =>
    let gvk := docGVK u
    if gvk.kind = "" then
      (.error "missing kind in resource", [])
    else
      match env.restMapping gvk with
      | .error e =>
          (.error ("failed to get REST mapping for " ++ gvk.kind ++ ": " ++ e),
           [.mapping gvk])
      | .ok m =>
        match env.createResp u with
        | .ok _ =>
            (.ok (), [.mapping gvk, .create m.resource u.ns u.name u])
        | .error ce =>
          if ce = .alreadyExists then
            match env.getResp u.ns u.name with
            | .error ge =>
                (.error ("failed to get existing " ++ gvk.kind ++ " " ++ u.name
                    ++ ": " ++ ge.message),
                 [.mapping gvk, .create m.resource u.ns u.name u,
                  .get m.resource u.ns u.name])
            | .ok ex =>
              let u2 := setResourceVersion u ex.resourceVersion
              match env.updateResp u2 with
              | .error ue =>
                  (.error ("failed to update " ++ gvk.kind ++ " " ++ u.name
                      ++ ": " ++ ue.message),
                   [.mapping gvk, .create m.resource u.ns u.name u,
                    .get m.resource u.ns u.name,
                    .update m.resource u2.ns u2.name u2])
              | .ok _ =>
                  (.ok (),
                   [.mapping gvk, .create m.resource u.ns u.name u,
                    .get m.resource u.ns u.name,
                    .update m.resource u2.ns u2.name u2])
          else
            (.error ("failed to create " ++ gvk.kind ++ " " ++ u.name
             ++ ": " ++ ce.message),
             [.mapping gvk, .create m.resource u.ns u.name u])

/-- C1: when create reports already-exists and the subsequent get and
update succeed, createResource fetches the existing object by the
document's namespace and name, re-issues the document with the fetched
resourceVersion as an update, makes exactly one create, one get and one
update call, and returns success. -/
theorem createResource_alreadyExists_upsert
    (env : DynEnv) (d : ManifestDoc) (m : RESTMapping) (ex : ExistingObj)
    (hkind : (docGVK d).kind ≠ "")
    (hmap : env.restMapping (docGVK d) = .ok m)
    (hcreate : env.createResp d = .error .alreadyExists)
    (hget : env.getResp d.ns d.name = .ok ex)
    (hupd : env.updateResp (setResourceVersion d ex.resourceVersion) = .ok ()) :
    createResource env (.valid d) =
      (.ok (), [.mapping (docGVK d),
                .create m.resource d.ns d.name d,
                .get m.resource d.ns d.name,
                .update m.resource d.ns d.name
                  (setResourceVersion d ex.resourceVersion)]) ∧
    countCreates (createResource env (.valid d)).2 = 1 ∧
    countGets (createResource env (.valid d)).2 = 1 ∧
    countUpdates (createResource env (.valid d)).2 = 1 ∧
    (setResourceVersion d ex.resourceVersion).resourceVersion
      = ex.resourceVersion := by
  have hupd2 : env.updateResp
      { d with resourceVersion := ex.resourceVersion } = .ok () := hupd
  refine ⟨?_, ?_, ?_, ?_, rfl⟩ <;>
    simp [createResource, decodeDoc, hkind, hmap, hcreate, hget, hupd2,
      countCreates, countGets, countUpdates, setResourceVersion]

def envC1 : DynEnv where
  restMapping := fun _ => .ok ⟨"widgets"⟩
  createResp := fun _ => .error .alreadyExists
  getResp := fun _ _ => .ok ⟨"42"⟩
  updateResp := fun _ => .ok ()

def docC1 : ManifestDoc :=
  ⟨"example.io/v1", "Widget", "w1", "default", "", "spec"⟩

/-- Witness for C1 at a concrete document and environment. -/
theorem createResource_alreadyExists_upsert_witness :
    createResource envC1 (.valid docC1) =
      (.ok (), [.mapping (docGVK docC1),
                .create "widgets" docC1.ns docC1.name docC1,
                .get "widgets" docC1.ns docC1.name,
                .update "widgets" docC1.ns docC1.name
                  (setResourceVersion docC1 "42")]) ∧
    countCreates (createResource envC1 (.valid docC1)).2 = 1 ∧
    countGets (createResource envC1 (.valid docC1)).2 = 1 ∧
    countUpdates (createResource envC1 (.valid docC1)).2 = 1 ∧
    (setResourceVersion docC1 "42").resourceVersion = "42" :=
  createResource_alreadyExists_upsert envC1 docC1 ⟨"widgets"⟩ ⟨"42"⟩
    (by decide) rfl rfl rfl rfl

/-- C6: a document whose decoded kind field is missing or empty is
rejected before any call is made: no REST-mapping resolution, no create,
no get, no update. -/
theorem createResource_missingKind
    (env : DynEnv) (raw : RawDoc) (u : ManifestDoc)
    (hdec : decodeDoc raw = some u)
    (hkind : (docGVK u).kind = "") :
    createResource env raw = (.error "missing kind in resource", []) := by
  simp [createResource, hdec, hkind]

def docC6 : ManifestDoc := ⟨"v1", "", "cm", "default", "", ""⟩

/-- Witness for C6 at a concrete kind-less document. -/
theorem createResource_missingKind_witness :
    createResource envC1 (.valid docC6) =
      (.error "missing kind in resource", []) :=
  createResource_missingKind envC1 (.valid docC6) docC6 rfl (by decide)

/-- The fmt.Errorf wrapping in createResourceFromFS for a failed document:
the file name and the 1-based document index are attached. -/
def wrapDocErr (filename : String) (i : Nat) (e : String) : String :=
  "failed to create resource from " ++ filename ++ " doc " ++ toString i
    ++ ": " ++ e

/-- The contribution of the document at index i of a file: nothing for a
blank document, otherwise the wrapped error (if any) and the calls made. -/
def docOutcome (env : DynEnv) (filename : String) (i : Nat) (d : RawDoc) :
    List String × List CallEvent :=
  if rawIsBlank d then ([], [])
  else
    match createResource env d with
    | (.error e, tr) => ([wrapDocErr filename i e], tr)
    | (.ok _, tr) => ([], tr)

/-- Concatenation of per-document outcomes, keeping order. -/
def joinOutcomes (l : List (List String × List CallEvent)) :
    List String × List CallEvent :=
  l.foldr (fun a b => (a.1 ++ b.1, a.2 ++ b.2)) ([], [])

/-- The document loop of Go createResourceFromFS: documents are numbered
from i, blank documents are skipped, each remaining document is applied
via createResource, and errors are collected (never aborting the loop). -/
def processDocs (env : DynEnv) (filename : String) :
    List RawDoc → Nat → List String × List CallEvent
  | [], _ => ([], [])
  | d :: rest, i =>
    if rawIsBlank d then processDocs env filename rest (i + 1)
    else
      let r := createResource env d
      let tailRes := processDocs env filename rest (i + 1)
      match r.1 with
      | .error e => (wrapDocErr filename i e :: tailRes.1, r.2 ++ tailRes.2)
      | .ok _ => (tailRes.1, r.2 ++ tailRes.2)

/-- Go createResourceFromFS: an empty file is skipped outright, otherwise
the YAML documents of the file are processed in order starting at index 1
and the per-document errors are aggregated (utilerrors.NewAggregate, which
is nil exactly when the list is empty).  The YAML splitting itself cannot
fail on an in-memory byte reader, so the reader-error branch of the Go
loop is unreachable and not modelled. -/
def createResourceFromFS (env : DynEnv) (filename : String)
    (content : List RawDoc) : List String × List CallEvent :=
  if content.isEmpty then ([], [])
  else processDocs env filename content 1

/-- Byte-wise suffix test; for an ASCII suffix this coincides with the Go
slice comparisons name[len(name)-5:] and name[len(name)-4:]. -/
def hasSuffix (s suffix : String) : Bool :=
  List.isSuffixOf suffix.toList s.toList

/-- The file filter of Go createResourcesFromFS: kept iff the byte length
is at least 5 and the name ends in ".yaml" or ".yml" (the Go test skips
when len(name) < 5 or both slice comparisons fail). -/
def isYamlName (name : String) : Bool :=
  5 ≤ name.utf8ByteSize && (hasSuffix name ".yaml" || hasSuffix name ".yml")

/-- One top-level entry of the embedded filesystem, as returned by
fs.ReadDir "."; content is the parsed document list of the file. -/
structure FileEntry where
  name : String
  isDir : Bool
  content : List RawDoc
  deriving DecidableEq

/-- The entries that the file loop actually processes. -/
def yamlFiles (fs : List FileEntry) : List FileEntry :=
  fs.filter fun f => !f.isDir && isYamlName f.name

/-- Go createResourcesFromFS: iterate over the top-level entries, skip
directories and names without a manifest extension, apply each remaining
file, and aggregate the per-file errors (each failing file contributes its
own aggregate).  Reading the embedded filesystem root cannot fail, so that
error branch is not modelled. -/
def createResourcesFromFS (env : DynEnv) (fs : List FileEntry) :
    List (String × List String) × List CallEvent :=
  match fs with
  | [] => ([], [])
  | f :: rest =>
    if f.isDir then createResourcesFromFS env rest
    else if !isYamlName f.name then createResourcesFromFS env rest
    else
      let fr := createResourceFromFS env f.name f.content
      let tailRes := createResourcesFromFS env rest
      if fr.1.isEmpty then (tailRes.1, fr.2 ++ tailRes.2)
      else ((f.name, fr.1) :: tailRes.1, fr.2 ++ tailRes.2)

theorem processDocs_eq_join (env : DynEnv) (fn : String) :
    ∀ (content : List RawDoc) (i : Nat),
      processDocs env fn content i =
        joinOutcomes ((content.enumFrom i).map fun p =>
          docOutcome env fn p.1 p.2) := by
  intro content
  induction content with
  | nil => intro i; rfl
  | cons d rest ih =>
    intro i
    by_cases hb : rawIsBlank d = true
    · simp [processDocs, List.enumFrom, joinOutcomes, docOutcome, hb, ih i.succ]
    · rcases hr : createResource env d with ⟨res, tr⟩
      cases res with
      | error e =>
        simp [processDocs, List.enumFrom, joinOutcomes, docOutcome, hb, hr,
          ih i.succ]
      | ok _ =>
        simp [processDocs, List.enumFrom, joinOutcomes, docOutcome, hb, hr,
          ih i.succ]

theorem createResourceFromFS_eq_join (env : DynEnv) (fn : String)
    (content : List RawDoc) :
    createResourceFromFS env fn content =
      joinOutcomes ((content.enumFrom 1).map fun p =>
        docOutcome env fn p.1 p.2) := by
  cases content with
  | nil => rfl
  | cons d rest =>
    simpa [createResourceFromFS] using processDocs_eq_join env fn (d :: rest) 1

theorem createResourcesFromFS_spec (env : DynEnv) :
    ∀ fs : List FileEntry,
      (createResourcesFromFS env fs).1 =
        (yamlFiles fs).filterMap (fun f =>
          if (createResourceFromFS env f.name f.content).1 = [] then none
          else some (f.name, (createResourceFromFS env f.name f.content).1)) ∧
      (createResourcesFromFS env fs).2 =
        ((yamlFiles fs).map fun f =>
          (createResourceFromFS env f.name f.content).2).flatten := by
  intro fs
  induction fs with
  | nil => exact ⟨rfl, rfl⟩
  | cons f rest ih =>
    by_cases hd : f.isDir
    · simpa [createResourcesFromFS, yamlFiles, hd] using ih
    · by_cases hy : isYamlName f.name
      · by_cases he : (createResourceFromFS env f.name f.content).1 = []
        · simp [createResourcesFromFS, yamlFiles, hd, hy, he, ih.1, ih.2,
            List.filter_cons, List.isEmpty_iff]
        · simp [createResourcesFromFS, yamlFiles, hd, hy, he, ih.1, ih.2,
            List.filter_cons, List.isEmpty_iff]
      · simpa [createResourcesFromFS, yamlFiles, hd, hy] using ih

theorem createResourcesFromFS_filter (env : DynEnv) (fs : List FileEntry) :
    createResourcesFromFS env fs = createResourcesFromFS env (yamlFiles fs) := by
  induction fs with
  | nil => rfl
  | cons f rest ih =>
    by_cases hd : f.isDir
    · simpa [createResourcesFromFS, yamlFiles, hd] using ih
    · by_cases hy : isYamlName f.name
      · simp [createResourcesFromFS, yamlFiles, hd, hy, List.filter_cons]
        rw [show (List.filter (fun f => !f.isDir && isYamlName f.name) rest)
            = yamlFiles rest from rfl, ← ih]
      · simpa [createResourcesFromFS, yamlFiles, hd, hy] using ih

theorem processDocs_allBlank (env : DynEnv) (fn : String) :
    ∀ (content : List RawDoc) (i : Nat),
      (∀ d ∈ content, rawIsBlank d = true) →
      processDocs env fn content i = ([], []) := by
  intro content
  induction content with
  | nil => intro i _; rfl
  | cons d rest ih =>
    intro i h
    simp [processDocs, h d (List.mem_cons_self d rest),
      ih (i + 1) fun x hx => h x (List.mem_cons_of_mem d hx)]

/-- C7: document and file processing never aborts early.  Within a file,
the result is exactly the concatenation of the independent per-document
outcomes (every non-blank document is applied, and every failing document
contributes its wrapped error to the aggregate, not just the first);
within a set, the result collects the aggregates of all processed files
and the concatenation of their call traces. -/
theorem apply_collectsAllFailures :
    (∀ (env : DynEnv) (fn : String) (content : List RawDoc),
      createResourceFromFS env fn content =
        joinOutcomes ((content.enumFrom 1).map fun p =>
          docOutcome env fn p.1 p.2)) ∧
    (∀ (env : DynEnv) (fs : List FileEntry),
      (createResourcesFromFS env fs).1 =
        (yamlFiles fs).filterMap (fun f =>
          if (createResourceFromFS env f.name f.content).1 = [] then none
          else some (f.name, (createResourceFromFS env f.name f.content).1)) ∧
      (createResourcesFromFS env fs).2 =
        ((yamlFiles fs).map fun f =>
          (createResourceFromFS env f.name f.content).2).flatten) :=
  ⟨fun env fn content => createResourceFromFS_eq_join env fn content,
   fun env fs => createResourcesFromFS_spec env fs⟩

def docC8 : ManifestDoc :=
  ⟨"example.io/v1", "Widget", "w8", "default", "", "spec"⟩

def envNoMapping : DynEnv where
  restMapping := fun gvk => .error ("no matches for kind " ++ gvk.kind)
  createResp := fun _ => .ok ()
  getResp := fun _ _ => .ok ⟨""⟩
  updateResp := fun _ => .ok ()

def dotYmlEntry : FileEntry := ⟨".yml", false, [.valid docC8]⟩

/-- C8 counterexample: the top-level entry named ".yml" is not a directory
and its name ends in ".yml", yet createResourcesFromFS skips it entirely
(empty aggregate, no calls) even in an environment where applying its
content would fail; the Go guard len(name) < 5 rejects the bare name
".yml" before the extension comparison. -/
theorem yamlExtension_counterexample :
    dotYmlEntry.isDir = false ∧
    hasSuffix dotYmlEntry.name ".yml" = true ∧
    createResourcesFromFS envNoMapping [dotYmlEntry] = ([], []) ∧
    (createResourceFromFS envNoMapping dotYmlEntry.name
      dotYmlEntry.content).1 ≠ [] := by
  decide

/-- C8 amended: createResourcesFromFS processes exactly those top-level
entries that are not directories and whose names are at least 5 bytes long
and end in ".yaml" or ".yml" (so the bare name ".yml" is skipped);
directories and other names are skipped, a file with empty content
succeeds producing no resources, and whitespace-only documents are
skipped without error. -/
theorem manifestFile_selection :
    (∀ (env : DynEnv) (fs : List FileEntry),
      createResourcesFromFS env fs = createResourcesFromFS env (yamlFiles fs)) ∧
    (∀ (env : DynEnv) (f : FileEntry) (rest : List FileEntry),
      f.isDir = false → isYamlName f.name = true →
      createResourcesFromFS env (f :: rest) =
        (let fr := createResourceFromFS env f.name f.content
         let tailRes := createResourcesFromFS env rest
         if fr.1.isEmpty then (tailRes.1, fr.2 ++ tailRes.2)
         else ((f.name, fr.1) :: tailRes.1, fr.2 ++ tailRes.2))) ∧
    (∀ (env : DynEnv) (fn : String),
      createResourceFromFS env fn [] = ([], [])) ∧
    (∀ (env : DynEnv) (fn : String) (content : List RawDoc),
      (∀ d ∈ content, rawIsBlank d = true) →
      createResourceFromFS env fn content = ([], [])) := by
  refine ⟨fun env fs => createResourcesFromFS_filter env fs, ?_, ?_, ?_⟩
  · intro env f rest hd hy
    simp [createResourcesFromFS, hd, hy]
  · intro env fn
    rfl
  · intro env fn content h
    cases content with
    | nil => rfl
    | cons d rest =>
      simpa [createResourceFromFS] using
        processDocs_allBlank env fn (d :: rest) 1 h

/-- Witness for C8 at concrete entries: a matching file is processed (its
failing document surfaces), and a whitespace-only file succeeds. -/
theorem manifestFile_selection_witness :
    createResourcesFromFS envNoMapping [⟨"a.yaml", false, [.valid docC8]⟩] =
      (let fr := createResourceFromFS envNoMapping "a.yaml" [.valid docC8]
       let tailRes := createResourcesFromFS envNoMapping []
       if fr.1.isEmpty then (tailRes.1, fr.2 ++ tailRes.2)
       else (("a.yaml", fr.1) :: tailRes.1, fr.2 ++ tailRes.2)) ∧
    createResourceFromFS envNoMapping "ws.yaml" [.whitespace] = ([], []) :=
  ⟨manifestFile_selection.2.1 envNoMapping ⟨"a.yaml", false, [.valid docC8]⟩ []
     rfl (by decide),
   manifestFile_selection.2.2.2 envNoMapping "ws.yaml" [.whitespace]
     (by decide)⟩

/-- The fixed retry period of bootstrapFS, in seconds: the time.Second
argument of wait.PollUntilContextCancel. -/
def bootstrapFSInterval : Nat := 1

/-- The observable steps of one bootstrapFS run: a full apply pass (with
its success flag) and a discovery-cache invalidation
(cache.Invalidate()). -/
inductive PassEvent where
  | pass (ok : Bool)
  | invalidate
  deriving DecidableEq

/-- Result of a bootstrapFS run: the returned error (if any) and the
ordered pass / invalidation events. -/
structure BFSOut where
  result : Except String Unit
  events : List PassEvent

/-- Go bootstrapFS: wait.PollUntilContextCancel with immediate=true runs a
full apply pass, returns on success, and otherwise records the failure,
invalidates the discovery cache and retries after the interval.  The
caller's context is modelled as fuel: the number of passes the context
still admits before cancellation; per-pass environments envs model the
cluster state (notably discovery) changing between passes.  On
cancellation the context error is wrapped with the last pass failure when
one exists. -/
def bootstrapFSAux (envs : Nat → DynEnv) (fs : List FileEntry) :
    Nat → Nat → Option (List (String × List String)) → BFSOut
  | 0, _, last =>
    ⟨.error (match last with
      | some _ => "context cancelled: last bootstrap failure"
      | none => "context cancelled"), []⟩
  | fuel + 1, i, _ =>
    let errs := (createResourcesFromFS (envs i) fs).1
    if errs.isEmpty then ⟨.ok (), [.pass true]⟩
    else
      let rest := bootstrapFSAux envs fs fuel (i + 1) (some errs)
      ⟨rest.result, .pass false :: .invalidate :: rest.events⟩

def bootstrapFS (fuel : Nat) (envs : Nat → DynEnv) (fs : List FileEntry) :
    BFSOut :=
  bootstrapFSAux envs fs fuel 0 none

def countPasses (evs : List PassEvent) : Nat :=
  (evs.filter fun e => match e with | .pass _ => true | _ => false).length

def countInvalidations (evs : List PassEvent) : Nat :=
  evs.count PassEvent.invalidate

/-- N failed passes, each followed by a cache invalidation. -/
def failurePattern (N : Nat) : List PassEvent :=
  (List.replicate N [PassEvent.pass false, PassEvent.invalidate]).flatten

theorem bootstrapFSAux_step_ok (envs : Nat → DynEnv) (fs : List FileEntry)
    (fuel i : Nat) (last : Option (List (String × List String)))
    (he : (createResourcesFromFS (envs i) fs).1 = []) :
    bootstrapFSAux envs fs (fuel + 1) i last = ⟨.ok (), [.pass true]⟩ := by
  simp [bootstrapFSAux, he]

theorem bootstrapFSAux_step_fail (envs : Nat → DynEnv) (fs : List FileEntry)
    (fuel i : Nat) (last : Option (List (String × List String)))
    (he : (createResourcesFromFS (envs i) fs).1 ≠ []) :
    bootstrapFSAux envs fs (fuel + 1) i last =
      ⟨(bootstrapFSAux envs fs fuel (i + 1)
          (some (createResourcesFromFS (envs i) fs).1)).result,
       .pass false :: .invalidate ::
         (bootstrapFSAux envs fs fuel (i + 1)
           (some (createResourcesFromFS (envs i) fs).1)).events⟩ := by
  rcases h : (createResourcesFromFS (envs i) fs).1 with _ | ⟨a, l⟩
  · exact absurd h he
  · simp [bootstrapFSAux, h]

theorem bootstrapFSAux_ok_iff (envs : Nat → DynEnv) (fs : List FileEntry) :
    ∀ (fuel i : Nat) (last : Option (List (String × List String))),
      (bootstrapFSAux envs fs fuel i last).result = .ok () ↔
        ∃ j, j < fuel ∧ (createResourcesFromFS (envs (i + j)) fs).1 = [] := by
  intro fuel
  induction fuel with
  | zero =>
    intro i last
    constructor
    · intro h
      rcases last with _ | e <;> simp [bootstrapFSAux] at h
    · rintro ⟨j, hj, _⟩
      exact absurd hj (Nat.not_lt_zero j)
  | succ f ih =>
    intro i last
    by_cases he : (createResourcesFromFS (envs i) fs).1 = []
    · rw [bootstrapFSAux_step_ok envs fs f i last he]
      constructor
      · intro _
        exact ⟨0, Nat.succ_pos f, by simpa using he⟩
      · intro _
        rfl
    · rw [bootstrapFSAux_step_fail envs fs f i last he]
      rw [show (⟨(bootstrapFSAux envs fs f (i + 1)
            (some (createResourcesFromFS (envs i) fs).1)).result,
          .pass false :: .invalidate ::
            (bootstrapFSAux envs fs f (i + 1)
              (some (createResourcesFromFS (envs i) fs).1)).events⟩ :
          BFSOut).result =
        (bootstrapFSAux envs fs f (i + 1)
          (some (createResourcesFromFS (envs i) fs).1)).result from rfl]
      rw [ih (i + 1) (some (createResourcesFromFS (envs i) fs).1)]
      constructor
      · rintro ⟨j, hj, hok⟩
        refine ⟨j + 1, by omega, ?_⟩
        rwa [show i + (j + 1) = i + 1 + j by omega]
      · rintro ⟨j, hj, hok⟩
        cases j with
        | zero => exact absurd (by simpa using hok) he
        | succ j =>
          refine ⟨j, by omega, ?_⟩
          rwa [show i + 1 + j = i + (j + 1) by omega]

theorem bootstrapFSAux_scenario (envs : Nat → DynEnv) (fs : List FileEntry) :
    ∀ (N fuel i : Nat) (last : Option (List (String × List String))),
      N < fuel →
      (∀ n, n < N → (createResourcesFromFS (envs (i + n)) fs).1 ≠ []) →
      (createResourcesFromFS (envs (i + N)) fs).1 = [] →
      bootstrapFSAux envs fs fuel i last =
        ⟨.ok (), failurePattern N ++ [.pass true]⟩ := by
  intro N
  induction N with
  | zero =>
    intro fuel i last hf _ hN
    obtain ⟨f, rfl⟩ : ∃ f, fuel = f + 1 := ⟨fuel - 1, by omega⟩
    rw [bootstrapFSAux_step_ok envs fs f i last (by simpa using hN)]
    simp [failurePattern]
  | succ N ih =>
    intro fuel i last hf hfail hN
    obtain ⟨f, rfl⟩ : ∃ f, fuel = f + 1 := ⟨fuel - 1, by omega⟩
    have h0 : (createResourcesFromFS (envs i) fs).1 ≠ [] := by
      simpa using hfail 0 (Nat.succ_pos N)
    rw [bootstrapFSAux_step_fail envs fs f i last h0]
    rw [ih f (i + 1) (some (createResourcesFromFS (envs i) fs).1)
      (by omega)
      (fun n hn => by
        have h := hfail (n + 1) (by omega)
        rwa [show i + (n + 1) = i + 1 + n by omega] at h)
      (by rwa [show i + (N + 1) = i + 1 + N by omega] at hN)]
    simp [failurePattern, List.replicate_succ]

theorem countPasses_append (l1 l2 : List PassEvent) :
    countPasses (l1 ++ l2) = countPasses l1 + countPasses l2 := by
  simp [countPasses, List.filter_append]

theorem countInvalidations_append (l1 l2 : List PassEvent) :
    countInvalidations (l1 ++ l2) =
      countInvalidations l1 + countInvalidations l2 := by
  simp [countInvalidations]

theorem failurePattern_succ (N : Nat) :
    failurePattern (N + 1) =
      [PassEvent.pass false, PassEvent.invalidate] ++ failurePattern N := by
  simp [failurePattern, List.replicate_succ]

theorem failurePattern_countPasses (N : Nat) :
    countPasses (failurePattern N) = N := by
  induction N with
  | zero => rfl
  | succ N ih =>
    rw [failurePattern_succ, countPasses_append, ih,
      show countPasses [PassEvent.pass false, PassEvent.invalidate] = 1
        from rfl]
    omega

theorem failurePattern_countInvalidations (N : Nat) :
    countInvalidations (failurePattern N) = N := by
  induction N with
  | zero => rfl
  | succ N ih =>
    rw [failurePattern_succ, countInvalidations_append, ih,
      show countInvalidations [PassEvent.pass false, PassEvent.invalidate] = 1
        from rfl]
    omega

theorem bootstrapFSAux_events_shape (envs : Nat → DynEnv)
    (fs : List FileEntry) :
    ∀ (fuel i : Nat) (last : Option (List (String × List String))),
      (∃ k, k ≤ fuel ∧
        (bootstrapFSAux envs fs fuel i last).events =
          failurePattern k ++ [.pass true]) ∨
      (bootstrapFSAux envs fs fuel i last).events = failurePattern fuel := by
  intro fuel
  induction fuel with
  | zero =>
    intro i last
    right
    cases last <;> rfl
  | succ f ih =>
    intro i last
    by_cases he : (createResourcesFromFS (envs i) fs).1 = []
    · rw [bootstrapFSAux_step_ok envs fs f i last he]
      exact Or.inl ⟨0, Nat.zero_le _, rfl⟩
    · rw [bootstrapFSAux_step_fail envs fs f i last he]
      rcases ih (i + 1) (some (createResourcesFromFS (envs i) fs).1) with
        ⟨k, hk, hev⟩ | hev
      · refine Or.inl ⟨k + 1, by omega, ?_⟩
        show PassEvent.pass false :: PassEvent.invalidate ::
          (bootstrapFSAux envs fs f (i + 1)
            (some (createResourcesFromFS (envs i) fs).1)).events = _
        rw [hev, failurePattern_succ]
        rfl
      · refine Or.inr ?_
        show PassEvent.pass false :: PassEvent.invalidate ::
          (bootstrapFSAux envs fs f (i + 1)
            (some (createResourcesFromFS (envs i) fs).1)).events = _
        rw [hev, failurePattern_succ]
        rfl

/-- C2: bootstrapFS retries full apply passes at the fixed 1-second
interval; it succeeds exactly when some pass before cancellation has an
empty error aggregate; every run's event trace consists of failed passes
each immediately followed by a cache invalidation, closed by a successful
pass when one occurs before cancellation; and when the first N passes
fail and pass N+1 succeeds it returns success after exactly N+1 passes
with exactly N cache invalidations. -/
theorem bootstrapFS_retryLoop :
    bootstrapFSInterval = 1 ∧
    (∀ (fuel : Nat) (envs : Nat → DynEnv) (fs : List FileEntry),
      (bootstrapFS fuel envs fs).result = .ok () ↔
        ∃ j, j < fuel ∧ (createResourcesFromFS (envs j) fs).1 = []) ∧
    (∀ (fuel : Nat) (envs : Nat → DynEnv) (fs : List FileEntry),
      (∃ k, k ≤ fuel ∧
        (bootstrapFS fuel envs fs).events = failurePattern k ++ [.pass true]) ∨
      (bootstrapFS fuel envs fs).events = failurePattern fuel) ∧
    (∀ (N fuel : Nat) (envs : Nat → DynEnv) (fs : List FileEntry),
      N < fuel →
      (∀ n, n < N → (createResourcesFromFS (envs n) fs).1 ≠ []) →
      (createResourcesFromFS (envs N) fs).1 = [] →
      bootstrapFS fuel envs fs = ⟨.ok (), failurePattern N ++ [.pass true]⟩ ∧
      countPasses (bootstrapFS fuel envs fs).events = N + 1 ∧
      countInvalidations (bootstrapFS fuel envs fs).events = N) := by
  refine ⟨rfl, ?_, ?_, ?_⟩
  · intro fuel envs fs
    simpa using bootstrapFSAux_ok_iff envs fs fuel 0 none
  · intro fuel envs fs
    exact bootstrapFSAux_events_shape envs fs fuel 0 none
  · intro N fuel envs fs hf hfail hN
    have h := bootstrapFSAux_scenario envs fs N fuel 0 none hf
      (fun n hn => by simpa using hfail n hn) (by simpa using hN)
    rw [show bootstrapFS fuel envs fs = bootstrapFSAux envs fs fuel 0 none
      from rfl, h]
    refine ⟨rfl, ?_, ?_⟩
    · show countPasses (failurePattern N ++ [PassEvent.pass true]) = N + 1
      rw [countPasses_append, failurePattern_countPasses]
      rfl
    · show countInvalidations (failurePattern N ++ [PassEvent.pass true]) = N
      rw [countInvalidations_append, failurePattern_countInvalidations]
      rfl

def envOk : DynEnv where
  restMapping := fun _ => .ok ⟨"widgets"⟩
  createResp := fun _ => .ok ()
  getResp := fun _ _ => .ok ⟨""⟩
  updateResp := fun _ => .ok ()

def envsC2 : Nat → DynEnv := fun n => if n < 1 then envNoMapping else envOk

def fsC2 : List FileEntry := [⟨"a.yaml", false, [.valid docC8]⟩]

/-- Witness for C2: with a resolver failing on the first pass only, the
loop succeeds on the second pass with one invalidation. -/
theorem bootstrapFS_retryLoop_witness :
    bootstrapFS 3 envsC2 fsC2 = ⟨.ok (), failurePattern 1 ++ [.pass true]⟩ ∧
    countPasses (bootstrapFS 3 envsC2 fsC2).events = 2 ∧
    countInvalidations (bootstrapFS 3 envsC2 fsC2).events = 1 :=
  bootstrapFS_retryLoop.2.2.2 1 3 envsC2 fsC2 (by decide) (by decide)
    (by decide)

/-- clientcmdapi.Cluster, restricted to the fields the bootstrap sets. -/
structure ClusterEntry where
  server : String
  certificateAuthorityData : String
  deriving DecidableEq

/-- clientcmdapi.AuthInfo, restricted to the token field. -/
structure AuthInfoEntry where
  token : String
  deriving DecidableEq

/-- clientcmdapi.Context: the cluster and user names it references. -/
structure ContextEntry where
  cluster : String
  authInfo : String
  deriving DecidableEq

/-- clientcmdapi.Config: named cluster, user and context maps plus the
current context, as populated by createControllerKubeconfigSecret. -/
structure KubeconfigCfg where
  kind : String
  apiVersion : String
  clusters : List (String × ClusterEntry)
  authInfos : List (String × AuthInfoEntry)
  contexts : List (String × ContextEntry)
  currentContext : String
  deriving DecidableEq

/-- The kubeconfig literal built in createControllerKubeconfigSecret from
the API server host, the CA certificate and the bearer token. -/
def buildKubeconfig (host ca token : String) : KubeconfigCfg :=
  { kind := "Config"
    apiVersion := "v1"
    clusters := [("workspace", ⟨host, ca⟩)]
    authInfos := [("controller", ⟨token⟩)]
    contexts := [("workspace", ⟨"workspace", "controller"⟩)]
    currentContext := "workspace" }

/-- A YAML document value: scalars and string-keyed mappings, the shapes
yaml.Marshal produces for clientcmdapi.Config. -/
inductive YamlVal where
  | str (s : String)
  | map (entries : List (String × YamlVal))

/-- An omitempty field: emitted only when the value is non-empty. -/
def optField (key val : String) : List (String × YamlVal) :=
  if val = "" then [] else [(key, .str val)]

def clusterToYaml (c : ClusterEntry) : YamlVal :=
  .map ([("server", .str c.server)] ++
    optField "certificate-authority-data" c.certificateAuthorityData)

def authInfoToYaml (a : AuthInfoEntry) : YamlVal :=
  .map (optField "token" a.token)

def contextToYaml (c : ContextEntry) : YamlVal :=
  .map [("cluster", .str c.cluster), ("user", .str c.authInfo)]

/-- yaml.Marshal of clientcmdapi.Config, at the level of YAML values and
in the fields the bootstrap populates: kind and apiVersion (omitempty),
the named maps under keys clusters / users / contexts, and
current-context.  The always-empty preferences and extensions maps are
not modelled. -/
def kubeconfigToYaml (c : KubeconfigCfg) : YamlVal :=
  .map (optField "kind" c.kind ++ optField "apiVersion" c.apiVersion ++
    [("clusters", .map (c.clusters.map fun p => (p.1, clusterToYaml p.2))),
     ("users", .map (c.authInfos.map fun p => (p.1, authInfoToYaml p.2))),
     ("contexts", .map (c.contexts.map fun p => (p.1, contextToYaml p.2))),
     ("current-context", .str c.currentContext)])

def parseStrVal : YamlVal → Option String
  | .str s => some s
  | _ => none

def lookupYaml (l : List (String × YamlVal)) (k : String) : Option YamlVal :=
  l.lookup k

/-- Unmarshal of a scalar field: an absent key yields the zero value "",
a present non-scalar is a type error. -/
def optStr (l : List (String × YamlVal)) (k : String) : Option String :=
  match lookupYaml l k with
  | none => some ""
  | some v => parseStrVal v

def parseCluster : YamlVal → Option ClusterEntry
  | .map l => do
      let s ← optStr l "server"
      let ca ← optStr l "certificate-authority-data"
      pure ⟨s, ca⟩
  | _ => none

def parseAuthInfo : YamlVal → Option AuthInfoEntry
  | .map l => do
      let t ← optStr l "token"
      pure ⟨t⟩
  | _ => none

def parseContext : YamlVal → Option ContextEntry
  | .map l => do
      let c ← optStr l "cluster"
      let u ← optStr l "user"
      pure ⟨c, u⟩
  | _ => none

/-- Unmarshal of a named map: every entry must parse. -/
def parseNamed {β : Type} (f : YamlVal → Option β) : YamlVal → Option (List (String × β))
  | .map l => l.foldr (fun p acc => do
      let b ← f p.2
      let r ← acc
      pure ((p.1, b) :: r)) (some [])
  | _ => none

def optNamed {β : Type} (l : List (String × YamlVal)) (k : String)
    (f : YamlVal → Option β) : Option (List (String × β)) :=
  match lookupYaml l k with
  | none => some []
  | some v => parseNamed f v

/-- Unmarshal of a serialized kubeconfig back into the config structure. -/
def parseKubeconfig : YamlVal → Option KubeconfigCfg
  | .map l => do
      let kind ← optStr l "kind"
      let apiVersion ← optStr l "apiVersion"
      let cl ← optNamed l "clusters" parseCluster
      let us ← optNamed l "users" parseAuthInfo
      let cx ← optNamed l "contexts" parseContext
      let cur ← optStr l "current-context"
      pure ⟨kind, apiVersion, cl, us, cx, cur⟩
  | _ => none

/-- C4: serializing the synthesized kubeconfig and re-parsing it restores
it exactly; it has exactly one cluster entry carrying the supplied host
and CA bytes, exactly one auth entry carrying the supplied token, and
exactly one context, which references that cluster and that auth entry
and is the current context. -/
theorem kubeconfig_roundTrip (host ca token : String) :
    parseKubeconfig (kubeconfigToYaml (buildKubeconfig host ca token)) =
      some (buildKubeconfig host ca token) ∧
    (buildKubeconfig host ca token).clusters = [("workspace", ⟨host, ca⟩)] ∧
    (buildKubeconfig host ca token).authInfos = [("controller", ⟨token⟩)] ∧
    (buildKubeconfig host ca token).contexts =
      [("workspace", ⟨"workspace", "controller"⟩)] ∧
    (buildKubeconfig host ca token).currentContext = "workspace" ∧
    (buildKubeconfig host ca token).contexts.lookup
        (buildKubeconfig host ca token).currentContext =
      some ⟨"workspace", "controller"⟩ ∧
    (buildKubeconfig host ca token).clusters.map Prod.fst = ["workspace"] ∧
    (buildKubeconfig host ca token).authInfos.map Prod.fst = ["controller"] := by
  refine ⟨?_, rfl, rfl, rfl, rfl, rfl, rfl, rfl⟩
  by_cases hca : ca = "" <;> by_cases ht : token = "" <;>
    simp [buildKubeconfig, kubeconfigToYaml, parseKubeconfig, optField,
      optStr, optNamed, lookupYaml, parseNamed, parseCluster, parseAuthInfo,
      parseContext, parseStrVal, clusterToYaml, authInfoToYaml, contextToYaml,
      List.lookup, hca, ht]

/-- corev1.Secret as fetched by the token poll: its data map, with values
as byte strings.  A missing key reads as the empty value, as the Go map
index does. -/
structure SecretObj where
  name : String
  ns : String
  data : List (String × String)
  deriving DecidableEq

def secretData (s : SecretObj) (k : String) : String :=
  match s.data.lookup k with
  | some v => v
  | none => ""

/-- The Secret persisted by createControllerKubeconfigSecret: fixed name,
namespace and Opaque type, with the serialized kubeconfig under the single
data key "kubeconfig". -/
structure OutSecret where
  name : String
  ns : String
  typ : String
  resourceVersion : String
  kubeconfig : YamlVal

/-- Calls made by createControllerKubeconfigSecret: one token-secret get
per poll tick, then create / get / update of the kubeconfig secret. -/
inductive CredEvent where
  | tokenGet (tick : Nat)
  | secretCreate (s : OutSecret)
  | secretGet (name : String)
  | secretUpdate (s : OutSecret)

/-- Environment for the credential materializer: the API server host from
the rest.Config, the tick-indexed responses to the token-secret get, and
the responses for persisting the kubeconfig secret. -/
structure CredEnv where
  host : String
  tokenSecretAt : Nat → Except ApiError SecretObj
  createSecretResp : OutSecret → Except ApiError Unit
  getSecretResp : Except ApiError ExistingObj
  updateSecretResp : OutSecret → Except ApiError Unit

/-- The poll condition continues (returns false, nil) exactly when the get
reports not-found or the secret's token value is empty. -/
def tickNotReady (env : CredEnv) (t : Nat) : Bool :=
  match env.tokenSecretAt t with
  | .error e => e == ApiError.notFound
  | .ok s => secretData s "token" == ""

/-- Poll interval in seconds: time.Second. -/
def tokenPollInterval : Nat := 1

/-- Poll deadline in seconds: 30*time.Second. -/
def tokenPollTimeout : Nat := 30

/-- Number of condition evaluations the bounded poll admits. -/
def tokenPollTicks : Nat := tokenPollTimeout / tokenPollInterval

/-- wait.PollUntilContextTimeout over the token-secret condition of
createControllerKubeconfigSecret: not-found and an empty token value
continue to the next tick, any other get error aborts with that error,
a populated token succeeds, and an exhausted deadline yields the context
error. -/
def pollTokenAux (env : CredEnv) :
    Nat → Nat → Except String SecretObj × List CredEvent
  | 0, _ => (.error "context deadline exceeded", [])
  | fuel + 1, t =>
    match env.tokenSecretAt t with
    | .error e =>
      if e = .notFound then
        let r := pollTokenAux env fuel (t + 1)
        (r.1, .tokenGet t :: r.2)
      else (.error e.message, [.tokenGet t])
    | .ok s =>
      if secretData s "token" = "" then
        let r := pollTokenAux env fuel (t + 1)
        (r.1, .tokenGet t :: r.2)
      else (.ok s, [.tokenGet t])

/-- Go createControllerKubeconfigSecret: wait for the service-account
token secret, build the kubeconfig from the host, the polled CA bytes and
the polled token, marshal it, and persist the secret with create-or-update
semantics (yaml.Marshal of the fixed struct cannot fail and is not given
an error branch). -/
def createControllerKubeconfigSecret (env : CredEnv) :
    Except String Unit × List CredEvent :=
  match pollTokenAux env tokenPollTicks 0 with
  | (.error e, evs) =>
      (.error ("failed to wait for service account token: " ++ e), evs)
  | (.ok ts, evs) =>
    let kc := buildKubeconfig env.host (secretData ts "ca.crt")
      (secretData ts "token")
    let sec : OutSecret :=
      ⟨"wildwest-controller-kubeconfig", "default", "Opaque", "",
       kubeconfigToYaml kc⟩
    match env.createSecretResp sec with
    | .ok _ => (.ok (), evs ++ [.secretCreate sec])
    | .error ce =>
      if ce = .alreadyExists then
        match env.getSecretResp with
        | .error ge =>
            (.error ("failed to get existing secret: " ++ ge.message),
             evs ++ [.secretCreate sec, .secretGet sec.name])
        | .ok ex =>
          let sec2 := { sec with resourceVersion := ex.resourceVersion }
          match env.updateSecretResp sec2 with
          | .error ue =>
              (.error ("failed to update secret: " ++ ue.message),
               evs ++ [.secretCreate sec, .secretGet sec.name,
                 .secretUpdate sec2])
          | .ok _ =>
              (.ok (),
               evs ++ [.secretCreate sec, .secretGet sec.name,
                 .secretUpdate sec2])
      else
        (.error ("failed to create secret: " ++ ce.message),
         evs ++ [.secretCreate sec])

theorem pollTokenAux_continue (env : CredEnv) (fuel t : Nat)
    (h : tickNotReady env t = true) :
    pollTokenAux env (fuel + 1) t =
      ((pollTokenAux env fuel (t + 1)).1,
       .tokenGet t :: (pollTokenAux env fuel (t + 1)).2) := by
  unfold tickNotReady at h
  rcases henv : env.tokenSecretAt t with e | s
  · rw [henv] at h
    have he : e = ApiError.notFound := by simpa using h
    simp [pollTokenAux, henv, he]
  · rw [henv] at h
    have hs : secretData s "token" = "" := by simpa using h
    simp [pollTokenAux, henv, hs]

theorem pollTokenAux_ready (env : CredEnv) (fuel t : Nat) (s : SecretObj)
    (hok : env.tokenSecretAt t = .ok s)
    (hne : secretData s "token" ≠ "") :
    pollTokenAux env (fuel + 1) t = (.ok s, [.tokenGet t]) := by
  simp [pollTokenAux, hok, hne]

theorem pollTokenAux_abortStep (env : CredEnv) (fuel t : Nat) (e : ApiError)
    (herr : env.tokenSecretAt t = .error e) (hne : e ≠ .notFound) :
    pollTokenAux env (fuel + 1) t = (.error e.message, [.tokenGet t]) := by
  simp [pollTokenAux, herr, hne]

theorem pollTokenAux_timeout (env : CredEnv) :
    ∀ (fuel i : Nat),
      (∀ j, j < fuel → tickNotReady env (i + j) = true) →
      pollTokenAux env fuel i =
        (.error "context deadline exceeded",
         (List.range' i fuel).map CredEvent.tokenGet) := by
  intro fuel
  induction fuel with
  | zero => intro i _; rfl
  | succ f ih =>
    intro i h
    rw [pollTokenAux_continue env f i (by simpa using h 0 (Nat.succ_pos f))]
    rw [ih (i + 1) (fun j hj => by
      have hh := h (j + 1) (by omega)
      rwa [show i + (j + 1) = i + 1 + j by omega] at hh)]
    simp [List.range'_succ]

theorem pollTokenAux_events_tokenGet (env : CredEnv) :
    ∀ (fuel i : Nat), ∀ ev ∈ (pollTokenAux env fuel i).2,
      ∃ k, ev = CredEvent.tokenGet k := by
  intro fuel
  induction fuel with
  | zero => intro i ev hev; simp [pollTokenAux] at hev
  | succ f ih =>
    intro i ev hev
    rcases henv : env.tokenSecretAt i with e | s
    · by_cases he : e = ApiError.notFound
      · rw [show pollTokenAux env (f + 1) i =
            ((pollTokenAux env f (i + 1)).1,
             .tokenGet i :: (pollTokenAux env f (i + 1)).2) from by
            simp [pollTokenAux, henv, he]] at hev
        rcases List.mem_cons.mp hev with h | h
        · exact ⟨i, h⟩
        · exact ih (i + 1) ev h
      · rw [pollTokenAux_abortStep env f i e henv he] at hev
        rcases List.mem_cons.mp hev with h | h
        · exact ⟨i, h⟩
        · simp at h
    · by_cases hs : secretData s "token" = ""
      · rw [show pollTokenAux env (f + 1) i =
            ((pollTokenAux env f (i + 1)).1,
             .tokenGet i :: (pollTokenAux env f (i + 1)).2) from by
            simp [pollTokenAux, henv, hs]] at hev
        rcases List.mem_cons.mp hev with h | h
        · exact ⟨i, h⟩
        · exact ih (i + 1) ev h
      · rw [pollTokenAux_ready env f i s henv hs] at hev
        rcases List.mem_cons.mp hev with h | h
        · exact ⟨i, h⟩
        · simp at h

theorem pollTokenAux_abortAt (env : CredEnv) :
    ∀ (k fuel i : Nat) (e : ApiError),
      k < fuel →
      (∀ j, j < k → tickNotReady env (i + j) = true) →
      env.tokenSecretAt (i + k) = .error e →
      e ≠ .notFound →
      pollTokenAux env fuel i =
        (.error e.message, (List.range' i (k + 1)).map CredEvent.tokenGet) := by
  intro k
  induction k with
  | zero =>
    intro fuel i e hf _ herr hne
    obtain ⟨f, rfl⟩ : ∃ f, fuel = f + 1 := ⟨fuel - 1, by omega⟩
    rw [pollTokenAux_abortStep env f i e (by simpa using herr) hne]
    rfl
  | succ k ih =>
    intro fuel i e hf hpre herr hne
    obtain ⟨f, rfl⟩ : ∃ f, fuel = f + 1 := ⟨fuel - 1, by omega⟩
    rw [pollTokenAux_continue env f i (by simpa using hpre 0 (Nat.succ_pos k))]
    rw [ih f (i + 1) e (by omega)
      (fun j hj => by
        have hh := hpre (j + 1) (by omega)
        rwa [show i + (j + 1) = i + 1 + j by omega] at hh)
      (by rwa [show i + (k + 1) = i + 1 + k by omega] at herr) hne]
    simp [List.range'_succ]

theorem pollTokenAux_readyAt (env : CredEnv) :
    ∀ (k fuel i : Nat) (s : SecretObj),
      k < fuel →
      (∀ j, j < k → tickNotReady env (i + j) = true) →
      env.tokenSecretAt (i + k) = .ok s →
      secretData s "token" ≠ "" →
      pollTokenAux env fuel i =
        (.ok s, (List.range' i (k + 1)).map CredEvent.tokenGet) := by
  intro k
  induction k with
  | zero =>
    intro fuel i s hf _ hok hne
    obtain ⟨f, rfl⟩ : ∃ f, fuel = f + 1 := ⟨fuel - 1, by omega⟩
    rw [pollTokenAux_ready env f i s (by simpa using hok) hne]
    rfl
  | succ k ih =>
    intro fuel i s hf hpre hok hne
    obtain ⟨f, rfl⟩ : ∃ f, fuel = f + 1 := ⟨fuel - 1, by omega⟩
    rw [pollTokenAux_continue env f i (by simpa using hpre 0 (Nat.succ_pos k))]
    rw [ih f (i + 1) s (by omega)
      (fun j hj => by
        have hh := hpre (j + 1) (by omega)
        rwa [show i + (j + 1) = i + 1 + j by omega] at hh)
      (by rwa [show i + (k + 1) = i + 1 + k by omega] at hok) hne]
    simp [List.range'_succ]

/-- C3: the credential poll runs at a 1-second interval under a 30-second
deadline; a tick succeeds exactly when the secret exists with a non-empty
token value, while not-found and an empty token continue to the next tick;
when the poll fails, createControllerKubeconfigSecret returns the wrapped
poll error having made only token-secret gets (the kubeconfig is neither
built nor persisted); and if every tick up to the deadline is non-ready it
returns the descriptive deadline error after exactly 30 ticks. -/
theorem credentialWait_bounded :
    tokenPollInterval = 1 ∧ tokenPollTimeout = 30 ∧ tokenPollTicks = 30 ∧
    (∀ (env : CredEnv) (fuel t : Nat) (s : SecretObj),
      env.tokenSecretAt t = .ok s → secretData s "token" ≠ "" →
      pollTokenAux env (fuel + 1) t = (.ok s, [.tokenGet t])) ∧
    (∀ (env : CredEnv) (fuel t : Nat),
      tickNotReady env t = true →
      pollTokenAux env (fuel + 1) t =
        ((pollTokenAux env fuel (t + 1)).1,
         .tokenGet t :: (pollTokenAux env fuel (t + 1)).2)) ∧
    (∀ (env : CredEnv) (e : String) (evs : List CredEvent),
      pollTokenAux env tokenPollTicks 0 = (.error e, evs) →
      createControllerKubeconfigSecret env =
        (.error ("failed to wait for service account token: " ++ e), evs) ∧
      ∀ ev ∈ evs, ∃ k, ev = CredEvent.tokenGet k) ∧
    (∀ env : CredEnv,
      (∀ t, t < tokenPollTicks → tickNotReady env t = true) →
      createControllerKubeconfigSecret env =
        (.error
          "failed to wait for service account token: context deadline exceeded",
         (List.range' 0 tokenPollTicks).map CredEvent.tokenGet)) := by
  refine ⟨rfl, rfl, rfl, ?_, ?_, ?_, ?_⟩
  · exact fun env fuel t s hok hne => pollTokenAux_ready env fuel t s hok hne
  · exact fun env fuel t h => pollTokenAux_continue env fuel t h
  · intro env e evs hpoll
    constructor
    · simp [createControllerKubeconfigSecret, hpoll]
    · intro ev hev
      exact pollTokenAux_events_tokenGet env tokenPollTicks 0 ev
        (by rw [hpoll] at *; exact hev)
  · intro env h
    have hpoll := pollTokenAux_timeout env tokenPollTicks 0
      (fun j hj => by simpa using h j hj)
    simp [createControllerKubeconfigSecret, hpoll]

def credEnvNotFound : CredEnv where
  host := "https://kcp.example"
  tokenSecretAt := fun _ => .error .notFound
  createSecretResp := fun _ => .ok ()
  getSecretResp := .ok ⟨""⟩
  updateSecretResp := fun _ => .ok ()

/-- Witness for C3: against a token secret that never appears, the
materializer times out with the descriptive error after 30 ticks. -/
theorem credentialWait_bounded_witness :
    createControllerKubeconfigSecret credEnvNotFound =
      (.error
        "failed to wait for service account token: context deadline exceeded",
       (List.range' 0 tokenPollTicks).map CredEvent.tokenGet) :=
  credentialWait_bounded.2.2.2.2.2.2 credEnvNotFound (by decide)

/-- C9: during the token poll, a get error other than not-found aborts the
wait at that very tick (only the ticks up to it are polled, nothing is
persisted) and createControllerKubeconfigSecret returns that error wrapped,
while not-found and empty-token ticks are the only ones that continue. -/
theorem credentialWait_abortsOnGetError (env : CredEnv) (k : Nat)
    (e : ApiError)
    (hk : k < tokenPollTicks)
    (hpre : ∀ j, j < k → tickNotReady env j = true)
    (herr : env.tokenSecretAt k = .error e)
    (hne : e ≠ .notFound) :
    createControllerKubeconfigSecret env =
      (.error ("failed to wait for service account token: " ++ e.message),
       (List.range' 0 (k + 1)).map CredEvent.tokenGet) := by
  have hpoll := pollTokenAux_abortAt env k tokenPollTicks 0 e hk
    (fun j hj => by simpa using hpre j hj) (by simpa using herr) hne
  simp [createControllerKubeconfigSecret, hpoll]

def credEnvBoom : CredEnv where
  host := "https://kcp.example"
  tokenSecretAt := fun t =>
    if t < 2 then .error .notFound else .error (.other "connection refused")
  createSecretResp := fun _ => .ok ()
  getSecretResp := .ok ⟨""⟩
  updateSecretResp := fun _ => .ok ()

/-- Witness for C9: two not-found ticks followed by a transport error stop
the poll at the third tick with that error. -/
theorem credentialWait_abortsOnGetError_witness :
    createControllerKubeconfigSecret credEnvBoom =
      (.error "failed to wait for service account token: connection refused",
       (List.range' 0 3).map CredEvent.tokenGet) :=
  credentialWait_abortsOnGetError credEnvBoom 2 (.other "connection refused")
    (by decide) (by decide) rfl (by decide)

/-- The four bootstrap steps, in source order. -/
inductive BootStep where
  | kcp
  | provider
  | controller
  | credential
  deriving DecidableEq

/-- Environment for Bootstrap: the three client constructions (an error
aborts before any step), the three manifest sets with their per-pass
environments and context fuel, and the credential environment. -/
structure BootstrapEnv where
  discoveryClientErr : Option String
  dynamicClientErr : Option String
  kubeClientErr : Option String
  kcpFuel : Nat
  kcpEnvs : Nat → DynEnv
  kcpFS : List FileEntry
  providerFuel : Nat
  providerEnvs : Nat → DynEnv
  providerFS : List FileEntry
  controllerFuel : Nat
  controllerEnvs : Nat → DynEnv
  controllerFS : List FileEntry
  cred : CredEnv

/-- Go Bootstrap: build the clients, then apply the kcp, provider and
controller manifest sets in that order via bootstrapFS, then create the
controller kubeconfig secret; each step runs only after all earlier steps
succeeded and the first failure is returned wrapped.  The second
component lists the steps that were started. -/
def Bootstrap (env : BootstrapEnv) : Except String Unit × List BootStep :=
  match env.discoveryClientErr with
  | some e => (.error ("failed to create discovery client: " ++ e), [])
  | none =>
    match env.dynamicClientErr with
    | some e => (.error ("failed to create dynamic client: " ++ e), [])
    | none =>
      match env.kubeClientErr with
      | some e => (.error ("failed to create kubernetes client: " ++ e), [])
      | none =>
        match (bootstrapFS env.kcpFuel env.kcpEnvs env.kcpFS).result with
        | .error e =>
            (.error ("failed to bootstrap kcp resources: " ++ e), [.kcp])
        | .ok _ =>
          match (bootstrapFS env.providerFuel env.providerEnvs
              env.providerFS).result with
          | .error e =>
              (.error ("failed to bootstrap provider resources: " ++ e),
               [.kcp, .provider])
          | .ok _ =>
            match (bootstrapFS env.controllerFuel env.controllerEnvs
                env.controllerFS).result with
            | .error e =>
                (.error ("failed to bootstrap controller resources: " ++ e),
                 [.kcp, .provider, .controller])
            | .ok _ =>
              match (createControllerKubeconfigSecret env.cred).1 with
              | .error e =>
                  (.error
                    ("failed to create controller kubeconfig secret: " ++ e),
                   [.kcp, .provider, .controller, .credential])
              | .ok _ =>
                  (.ok (), [.kcp, .provider, .controller, .credential])

/-- C5: with the clients constructed, Bootstrap runs kcp manifests, then
provider manifests, then controller manifests, then the controller
credential, in that fixed order; a step is started only when every
earlier step succeeded, and the first failing step's wrapped error is
returned immediately with no later step started. -/
theorem bootstrap_sequencing (env : BootstrapEnv)
    (hc1 : env.discoveryClientErr = none)
    (hc2 : env.dynamicClientErr = none)
    (hc3 : env.kubeClientErr = none) :
    (∀ e, (bootstrapFS env.kcpFuel env.kcpEnvs env.kcpFS).result = .error e →
      Bootstrap env =
        (.error ("failed to bootstrap kcp resources: " ++ e), [.kcp])) ∧
    (∀ e, (bootstrapFS env.kcpFuel env.kcpEnvs env.kcpFS).result = .ok () →
      (bootstrapFS env.providerFuel env.providerEnvs env.providerFS).result
        = .error e →
      Bootstrap env =
        (.error ("failed to bootstrap provider resources: " ++ e),
         [.kcp, .provider])) ∧
    (∀ e, (bootstrapFS env.kcpFuel env.kcpEnvs env.kcpFS).result = .ok () →
      (bootstrapFS env.providerFuel env.providerEnvs env.providerFS).result
        = .ok () →
      (bootstrapFS env.controllerFuel env.controllerEnvs
        env.controllerFS).result = .error e →
      Bootstrap env =
        (.error ("failed to bootstrap controller resources: " ++ e),
         [.kcp, .provider, .controller])) ∧
    (∀ e, (bootstrapFS env.kcpFuel env.kcpEnvs env.kcpFS).result = .ok () →
      (bootstrapFS env.providerFuel env.providerEnvs env.providerFS).result
        = .ok () →
      (bootstrapFS env.controllerFuel env.controllerEnvs
        env.controllerFS).result = .ok () →
      (createControllerKubeconfigSecret env.cred).1 = .error e →
      Bootstrap env =
        (.error ("failed to create controller kubeconfig secret: " ++ e),
         [.kcp, .provider, .controller, .credential])) ∧
    ((bootstrapFS env.kcpFuel env.kcpEnvs env.kcpFS).result = .ok () →
      (bootstrapFS env.providerFuel env.providerEnvs env.providerFS).result
        = .ok () →
      (bootstrapFS env.controllerFuel env.controllerEnvs
        env.controllerFS).result = .ok () →
      (createControllerKubeconfigSecret env.cred).1 = .ok () →
      Bootstrap env = (.ok (), [.kcp, .provider, .controller, .credential])) := by
  refine ⟨?_, ?_, ?_, ?_, ?_⟩
  · intro e h1
    simp [Bootstrap, hc1, hc2, hc3, h1]
  · intro e h1 h2
    simp [Bootstrap, hc1, hc2, hc3, h1, h2]
  · intro e h1 h2 h3
    simp [Bootstrap, hc1, hc2, hc3, h1, h2, h3]
  · intro e h1 h2 h3 h4
    simp [Bootstrap, hc1, hc2, hc3, h1, h2, h3, h4]
  · intro h1 h2 h3 h4
    simp [Bootstrap, hc1, hc2, hc3, h1, h2, h3, h4]

def credEnvOk : CredEnv where
  host := "https://kcp.example"
  tokenSecretAt := fun _ =>
    .ok ⟨"wildwest-controller-token", "default",
         [("token", "tok"), ("ca.crt", "ca")]⟩
  createSecretResp := fun _ => .ok ()
  getSecretResp := .ok ⟨""⟩
  updateSecretResp := fun _ => .ok ()

def bootEnvOk : BootstrapEnv where
  discoveryClientErr := none
  dynamicClientErr := none
  kubeClientErr := none
  kcpFuel := 1
  kcpEnvs := fun _ => envOk
  kcpFS := []
  providerFuel := 1
  providerEnvs := fun _ => envOk
  providerFS := []
  controllerFuel := 1
  controllerEnvs := fun _ => envOk
  controllerFS := []
  cred := credEnvOk

/-- Witness for C5: a fully healthy environment runs all four steps in
order and succeeds. -/
theorem bootstrap_sequencing_witness :
    Bootstrap bootEnvOk = (.ok (), [.kcp, .provider, .controller, .credential]) :=
  (bootstrap_sequencing bootEnvOk rfl rfl rfl).2.2.2.2 rfl rfl rfl rfl

/-- Cowboy spec (apis/wildwest/v1alpha1): the desired action. -/
structure CowboySpec where
  intent : String
  deriving DecidableEq

/-- Cowboy status: the outcome of the action. -/
structure CowboyStatus where
  result : String
  deriving DecidableEq

/-- The Cowboy fields the reconciler reads and writes. -/
structure Cowboy where
  spec : CowboySpec
  status : CowboyStatus
  deriving DecidableEq

/-- The status logic of CowboyReconciler.Reconcile on a fetched Cowboy:
when the intent is non-empty and the result still empty, set the result
and issue a status update (flag true); otherwise leave the object alone
(flag false). -/
def reconcileCowboy (c : Cowboy) : Cowboy × Bool :=
  if c.spec.intent ≠ "" ∧ c.status.result = "" then
    ({ c with status := ⟨"Yeehaw! " ++ c.spec.intent ++ " completed"⟩ }, true)
  else (c, false)

theorem yeehaw_ne_empty (s : String) :
    ("Yeehaw! " ++ s ++ " completed") ≠ "" := by
  intro h
  have hlen := congrArg String.length h
  rw [String.length_append, String.length_append] at hlen
  rw [show "Yeehaw! ".length = 8 from rfl,
    show " completed".length = 10 from rfl,
    show "".length = 0 from rfl] at hlen
  omega

/-- C10: Reconcile writes the status result only when the intent is
non-empty and the result empty, setting it to "Yeehaw! " plus the intent
plus " completed"; otherwise the object is unchanged, and reconciling an
already-reconciled object performs no status update and leaves it
unchanged. -/
theorem cowboyReconcile_idempotent :
    (∀ c : Cowboy, (reconcileCowboy c).2 = true ↔
      (c.spec.intent ≠ "" ∧ c.status.result = "")) ∧
    (∀ c : Cowboy, (reconcileCowboy c).2 = true →
      (reconcileCowboy c).1.status.result =
        "Yeehaw! " ++ c.spec.intent ++ " completed") ∧
    (∀ c : Cowboy, (reconcileCowboy c).2 = false → (reconcileCowboy c).1 = c) ∧
    (∀ c : Cowboy, reconcileCowboy (reconcileCowboy c).1 =
      ((reconcileCowboy c).1, false)) := by
  refine ⟨?_, ?_, ?_, ?_⟩
  · intro c
    by_cases h : c.spec.intent ≠ "" ∧ c.status.result = "" <;>
      simp [reconcileCowboy, h]
  · intro c
    by_cases h : c.spec.intent ≠ "" ∧ c.status.result = "" <;>
      simp [reconcileCowboy, h]
  · intro c
    by_cases h : c.spec.intent ≠ "" ∧ c.status.result = "" <;>
      simp [reconcileCowboy, h]
  · intro c
    by_cases h : c.spec.intent ≠ "" ∧ c.status.result = ""
    · simp [reconcileCowboy, h, yeehaw_ne_empty]
    · simp [reconcileCowboy, h]

/-- Witness for C10 at a concrete Cowboy: the first reconcile updates the
status, the second is a no-op. -/
theorem cowboyReconcile_idempotent_witness :
    (reconcileCowboy ⟨⟨"wrangle"⟩, ⟨""⟩⟩).2 = true ∧
    (reconcileCowboy ⟨⟨"wrangle"⟩, ⟨""⟩⟩).1.status.result =
      "Yeehaw! " ++ "wrangle" ++ " completed" ∧
    reconcileCowboy (reconcileCowboy ⟨⟨"wrangle"⟩, ⟨""⟩⟩).1 =
      ((reconcileCowboy ⟨⟨"wrangle"⟩, ⟨""⟩⟩).1, false) :=
  ⟨(cowboyReconcile_idempotent.1 ⟨⟨"wrangle"⟩, ⟨""⟩⟩).mpr ⟨by decide, rfl⟩,
   cowboyReconcile_idempotent.2.1 ⟨⟨"wrangle"⟩, ⟨""⟩⟩
     ((cowboyReconcile_idempotent.1 ⟨⟨"wrangle"⟩, ⟨""⟩⟩).mpr ⟨by decide, rfl⟩),
   cowboyReconcile_idempotent.2.2.2 ⟨⟨"wrangle"⟩, ⟨""⟩⟩⟩
